import Mathlib

/-!
Verification of the peer session and link-quality subsystem of the
remote-daw repository (PeerManager and LatencyMonitor).

JavaScript objects used as string-keyed dictionaries (`this.connections`,
`this.pingHistory`, `this.pendingPings`, ...) are embedded as association
lists that preserve insertion order, matching the iteration order of
string keys in JS objects.  Machine numbers produced by `Date.now()`
arithmetic are embedded as `Int`; `Math.round` of a quotient of integers
is embedded exactly (round half toward positive infinity).  DOM, logging
and console side effects are not part of the state; observable effects of
the monitor (timer creation/cancellation, messages sent, display updates)
are returned explicitly as a list of `MonitorEffect`s.
-/

namespace RemoteDaw

/-- Lookup of a string key in a JS-object-style association list
(first matching entry; keys are unique by construction of `aset`). -/
def alookup {α : Type} : List (String × α) → String → Option α
  | [], _ => none
  | (k, v) :: l, key => if k = key then some v else alookup l key

/-- Assignment `obj[key] = v` on a JS-object-style association list:
overwrites in place if the key exists (keeping its position, as JS keeps
insertion order), otherwise appends at the end. -/
def aset {α : Type} : List (String × α) → String → α → List (String × α)
  | [], key, v => [(key, v)]
  | (k, w) :: l, key, v => if k = key then (k, v) :: l else (k, w) :: aset l key v

/-- Deletion `delete obj[key]` on a JS-object-style association list. -/
def adel {α : Type} : List (String × α) → String → List (String × α)
  | [], _ => []
  | (k, w) :: l, key => if k = key then adel l key else (k, w) :: adel l key

theorem alookup_aset {α : Type} (l : List (String × α)) (k k' : String) (v : α) :
    alookup (aset l k v) k' = if k = k' then some v else alookup l k' := by
  induction l with
  | nil => by_cases h : k = k' <;> simp [aset, alookup, h]
  | cons hd tl ih =>
    obtain ⟨k0, v0⟩ := hd
    by_cases h0 : k0 = k
    · subst h0
      by_cases h1 : k0 = k'
      · subst h1
        simp [aset, alookup]
      · simp [aset, alookup, h1]
    · by_cases h1 : k0 = k'
      · subst h1
        have h2 : ¬ k = k0 := fun hk => h0 hk.symm
        simp [aset, alookup, h0, h2]
      · simp [aset, alookup, h0, h1, ih]

theorem alookup_adel {α : Type} (l : List (String × α)) (k k' : String) :
    alookup (adel l k) k' = if k = k' then none else alookup l k' := by
  induction l with
  | nil => by_cases h : k = k' <;> simp [adel, alookup, h]
  | cons hd tl ih =>
    obtain ⟨k0, v0⟩ := hd
    by_cases h0 : k0 = k
    · subst h0
      by_cases h1 : k0 = k'
      · subst h1
        simp [adel, alookup, ih]
      · simp [adel, alookup, h1, ih]
    · by_cases h1 : k0 = k'
      · subst h1
        have h2 : ¬ k = k0 := fun hk => h0 hk.symm
        simp [adel, alookup, h0, h2]
      · simp [adel, alookup, h0, h1, ih]

theorem adel_of_alookup_none {α : Type} (l : List (String × α)) (k : String)
    (h : alookup l k = none) : adel l k = l := by
  induction l with
  | nil => simp [adel]
  | cons hd tl ih =>
    obtain ⟨k0, v0⟩ := hd
    by_cases h0 : k0 = k
    · simp [alookup, h0] at h
    · simp [alookup, h0] at h
      simp [adel, h0, ih h]

theorem mem_map_fst_iff_alookup_isSome {α : Type} (l : List (String × α)) (k : String) :
    k ∈ l.map Prod.fst ↔ (alookup l k).isSome := by
  induction l with
  | nil => simp [alookup]
  | cons hd tl ih =>
    obtain ⟨k0, v0⟩ := hd
    by_cases h0 : k0 = k
    · subst h0
      simp [alookup]
    · have h0' : ¬ k = k0 := fun hk => h0 hk.symm
      simp [alookup, h0, h0', ih]

/-- A record stored in `this.pendingPings[pingId]` by `LatencyMonitor.sendPing`:
the send timestamp and the peer the ping was addressed to. -/
structure PendingPing where
  timestamp : Int
  peerId : String
deriving DecidableEq, Repr

/-- Observable side effects of LatencyMonitor operations: timer scheduling and
cancellation (`setInterval`, `setTimeout`, `clearInterval`), attaching the
`connection.on('data', ...)` handler, sending a `latency-ping` message over the
data channel, and updating the latency display in the UI. -/
inductive MonitorEffect where
  | scheduleInterval (timerId : Nat) (periodMs : Nat)
  | scheduleTimeout (delayMs : Nat)
  | attachDataHandler (peerId : String)
  | cancelInterval (timerId : Nat)
  | sendPingMessage (peerId : String) (pingId : String) (timestamp : Int)
  | updateDisplay (peerId : String)
deriving DecidableEq, Repr

/-- State of the `LatencyMonitor` class (latency-monitor.js): interval timer ids
by peer, RTT history by peer, and pending pings by ping id.  The constructor
constants `this.historyLength = 10` and `this.pingInterval = 2000` are never
reassigned and are embedded as the constants `LatencyMonitor.historyLength` and
`LatencyMonitor.pingInterval`; the unused `this.initial` flag is carried as a
field for fidelity. -/
structure LatencyMonitor where
  pingIntervals : List (String × Nat)
  pingHistory : List (String × List Int)
  pendingPings : List (String × PendingPing)
  initial : Bool
deriving DecidableEq, Repr

/-- Constructor constant `this.historyLength = 10` (number of pings kept). -/
def LatencyMonitor.historyLength : Nat := 10

/-- Constructor constant `this.pingInterval = 2000` (ping period in ms). -/
def LatencyMonitor.pingInterval : Nat := 2000

/-- The state built by the `LatencyMonitor` constructor: all maps empty. -/
def initLatencyMonitor : LatencyMonitor :=
  { pingIntervals := [], pingHistory := [], pendingPings := [], initial := true }

/-- The `while (this.pingHistory[peerId].length > this.historyLength)
{ this.pingHistory[peerId].shift(); }` loop of `processPong`: repeatedly drop
the oldest (front) sample while the list is longer than `n`. -/
def shiftWhileOver (n : Nat) : List Int → List Int
  | [] => []
  | a :: l => if n < (a :: l).length then shiftWhileOver n l else a :: l

/-- LatencyMonitor.startMonitoring (latency-monitor.js lines 21-59).  The guard
`if (this.pingIntervals[peerId]) return` is a truthiness test on the stored
interval id; browser timer ids are nonzero, so it is `Option.isSome` here.
`timerId` stands for the id returned by `setInterval`; the effects record, in
program order, the `setInterval(.., 2000)` call, the `setTimeout(.., 200)` call
scheduling one early ping, and the `connection.on('data', ...)` registration. -/
def LatencyMonitor.startMonitoring (m : LatencyMonitor) (peerId : String)
    (timerId : Nat) : LatencyMonitor × List MonitorEffect :=
  if (alookup m.pingIntervals peerId).isSome then
    (m, [])
  else
    ({ m with
        pingHistory := aset m.pingHistory peerId [],
        pingIntervals := aset m.pingIntervals peerId timerId },
     [.scheduleInterval timerId LatencyMonitor.pingInterval,
      .scheduleTimeout 200,
      .attachDataHandler peerId])

/-- LatencyMonitor.stopMonitoring (latency-monitor.js lines 65-80): when an
interval entry exists, clear it and delete the interval id, the history, and
every pending ping whose `peerId` matches; otherwise do nothing. -/
def LatencyMonitor.stopMonitoring (m : LatencyMonitor) (peerId : String) :
    LatencyMonitor × List MonitorEffect :=
  match alookup m.pingIntervals peerId with
  | none => (m, [])
  | some timerId =>
      ({ m with
          pingIntervals := adel m.pingIntervals peerId,
          pingHistory := adel m.pingHistory peerId,
          pendingPings := m.pendingPings.filter (fun kv => kv.2.peerId != peerId) },
       [.cancelInterval timerId])

/-- LatencyMonitor.sendPing (latency-monitor.js lines 87-113): if the
connection is absent or not open, stop monitoring the peer; otherwise record
the ping in `pendingPings` under the fresh `pingId` and send the message.
`connectionOpen` embeds `connection && connection.open`; `now` embeds
`Date.now()`. -/
def LatencyMonitor.sendPing (m : LatencyMonitor) (peerId : String)
    (connectionOpen : Bool) (pingId : String) (now : Int) :
    LatencyMonitor × List MonitorEffect :=
  if !connectionOpen then
    m.stopMonitoring peerId
  else
    ({ m with pendingPings := aset m.pendingPings pingId ⟨now, peerId⟩ },
     [.sendPingMessage peerId pingId now])

/-- LatencyMonitor.processPong (latency-monitor.js lines 120-151): an unknown
ping id returns with no state change and no effect; a matching one appends
`rtt = now - pending.timestamp` to the peer's history (created if absent),
trims the history from the front to `historyLength`, updates the latency
display, and deletes the consumed pending-ping record. -/
def LatencyMonitor.processPong (m : LatencyMonitor) (peerId : String)
    (pingId : String) (now : Int) : LatencyMonitor × List MonitorEffect :=
  match alookup m.pendingPings pingId with
  | none => (m, [])
  | some pending =>
      let rtt := now - pending.timestamp
      let history := (alookup m.pingHistory peerId).getD []
      let history := shiftWhileOver LatencyMonitor.historyLength (history ++ [rtt])
      ({ m with
          pingHistory := aset m.pingHistory peerId history,
          pendingPings := adel m.pendingPings pingId },
       [.updateDisplay peerId])

/-- The statistics record returned by `calculateLatencyStats`. -/
structure LatencyStats where
  avg : Int
  min : Int
  max : Int
  jitter : Int
deriving DecidableEq, Repr

/-- JavaScript `Math.round(a / b)` for integer `a` and positive integer `b`:
round half toward positive infinity, i.e. `⌊a/b + 1/2⌋ = ⌊(2a+b)/(2b)⌋`,
computed with integer floor division. -/
def jsRoundDiv (a b : Int) : Int := Int.fdiv (2 * a + b) (2 * b)

/-- The `jitterSum` loop of `calculateLatencyStats`, summing
`Math.abs(history[i] - history[i-1])` for `i = 1 .. length-1`, with the
previous element carried as the first argument. -/
def jitterSumFrom : Int → List Int → Int
  | _, [] => 0
  | prev, x :: l => |x - prev| + jitterSumFrom x l

/-- Sum of absolute differences of consecutive samples of a history. -/
def jitterSum : List Int → Int
  | [] => 0
  | a :: t => jitterSumFrom a t

/-- LatencyMonitor.calculateLatencyStats (latency-monitor.js lines 158-181):
a missing or empty history yields the all-zero record; otherwise the average is
`Math.round(sum / length)`, min and max are `Math.min(...)` / `Math.max(...)`,
and jitter is `Math.round(jitterSum / (length - 1))` when the history has more
than one sample, else 0. -/
def LatencyMonitor.calculateLatencyStats (m : LatencyMonitor) (peerId : String) :
    LatencyStats :=
  match alookup m.pingHistory peerId with
  | none => { avg := 0, min := 0, max := 0, jitter := 0 }
  | some [] => { avg := 0, min := 0, max := 0, jitter := 0 }
  | some (a :: t) =>
      let history := a :: t
      let sum := history.foldl (fun x y => x + y) 0
      let avg := jsRoundDiv sum (history.length : Int)
      let mn := t.foldl min a
      let mx := t.foldl max a
      let jitter :=
        if 1 < history.length then
          jsRoundDiv (jitterSum history) ((history.length : Int) - 1)
        else 0
      { avg := avg, min := mn, max := mx, jitter := jitter }

/-- The three-way quality scale returned by `getLatencyQuality`. -/
inductive LatencyQuality where
  | good
  | medium
  | poor
deriving DecidableEq, Repr

/-- LatencyMonitor.getLatencyQuality (latency-monitor.js lines 189-197). -/
def getLatencyQuality (latency jitter : Int) : LatencyQuality :=
  if latency < 50 ∧ jitter < 15 then .good
  else if latency < 100 ∧ jitter < 30 then .medium
  else .poor

/-- A PeerJS DataConnection as far as the registry logic observes it: the
remote peer's id (`conn.peer`) and whether the channel is open (`conn.open`,
named `connOpen` since `open` is reserved in Lean). -/
structure DataConnection where
  peer : String
  connOpen : Bool
deriving DecidableEq, Repr

/-- State of the `PeerManager` class (first revision in the repository,
part_000 lines 171-1033): data connections, media calls, and adaptive
jitter-buffer stats intervals, each keyed by peer id.  The signaling handle
(`this.peer`), local `peerId` and `isConnected` flag do not participate in the
claims and are omitted. -/
structure PeerManager where
  connections : List (String × DataConnection)
  calls : List (String × Nat)
  statsIntervals : List (String × Nat)
deriving DecidableEq, Repr

/-- The registry state built by the `PeerManager` constructor. -/
def initPeerManager : PeerManager :=
  { connections := [], calls := [], statsIntervals := [] }

/-- PeerManager.handleConnection (part_000 lines 446-524), state part: the
connection is stored in `this.connections[conn.peer]` immediately, before the
`conn.on('open', ...)` handler it registers has fired — on the inbound path
(`peer.on('connection')`) the data channel is not yet open at this point.
Handler registration and UI updates are external effects. -/
def PeerManager.handleConnection (pm : PeerManager) (conn : DataConnection) :
    PeerManager :=
  { pm with connections := aset pm.connections conn.peer conn }

/-- PeerManager.getConnectedPeers (part_000 lines 1021-1023):
`Object.keys(this.connections)`. -/
def PeerManager.getConnectedPeers (pm : PeerManager) : List String :=
  pm.connections.map Prod.fst

/-- PeerManager.isConnectedToPeer (part_000 lines 1030-1032):
`this.connections[peerId] && this.connections[peerId].open`.  This is the
code's own test for "data channel state is Open". -/
def PeerManager.isConnectedToPeer (pm : PeerManager) (peerId : String) : Bool :=
  match alookup pm.connections peerId with
  | some conn => conn.connOpen
  | none => false

/-- Combined registry-plus-monitor state acted on by peer teardown. -/
structure AppState where
  peerManager : PeerManager
  latencyMonitor : LatencyMonitor
deriving DecidableEq, Repr

/-- PeerManager.handlePeerDisconnection (part_000 lines 935-967), state part:
conditionally delete the peer's entries from `connections`, `calls` and
`statsIntervals` (each behind the code's truthiness guard), then call
`latencyMonitor.stopMonitoring(peerId)`.  The remaining steps —
`clearInterval`, `audioManager.removeRemoteStream`,
`UIController.removePeerFromList` and the status-text update — are external
effects with no registry/monitor state. -/
def handlePeerDisconnection (s : AppState) (peerId : String) : AppState :=
  let connections :=
    if (alookup s.peerManager.connections peerId).isSome then
      adel s.peerManager.connections peerId
    else s.peerManager.connections
  let calls :=
    if (alookup s.peerManager.calls peerId).isSome then
      adel s.peerManager.calls peerId
    else s.peerManager.calls
  let statsIntervals :=
    if (alookup s.peerManager.statsIntervals peerId).isSome then
      adel s.peerManager.statsIntervals peerId
    else s.peerManager.statsIntervals
  { peerManager :=
      { connections := connections, calls := calls, statsIntervals := statsIntervals },
    latencyMonitor := (s.latencyMonitor.stopMonitoring peerId).1 }

/-- Events a PeerJS DataConnection can deliver to the handlers that
`connectToPeer` registers on its freshly created connection. -/
inductive ConnEvent where
  | evOpen
  | evError
deriving DecidableEq, Repr

/-- Actions of the outbound join flow, in the order `connectToPeer` performs
them: registering the connection (`this.handleConnection(conn)`), initiating
the media call (`this.callPeer(remotePeerId)`), and rejecting the returned
promise. -/
inductive FlowAction where
  | registerConnection
  | startMediaCall
  | rejectJoin
deriving DecidableEq, Repr

/-- The handlers installed by PeerManager.connectToPeer (part_000 lines
280-315): `conn.on('open')` runs `handleConnection` and then `callPeer`;
`conn.on('error')` rejects the promise.  No other code path of
`connectToPeer` touches the media call. -/
def connectToPeerHandler : ConnEvent → List FlowAction
  | .evOpen => [.registerConnection, .startMediaCall]
  | .evError => [.rejectJoin]

/-- The action log of the outbound join flow over a sequence of connection
events, the handlers firing in event order. -/
def connectToPeerLog : List ConnEvent → List FlowAction
  | [] => []
  | e :: rest => connectToPeerHandler e ++ connectToPeerLog rest

/-- Events driving the LatencyMonitor state: `start p tid` is a
`startMonitoring` call whose `setInterval` returned `tid`; `stop p` is a
`stopMonitoring` call; `tick p open pingId now` is a periodic or one-shot
timer firing `sendPing` (with the connection's open state and the generated
ping id); `pong p pingId now` is a `latency-pong` arriving for `processPong`. -/
inductive MonEvent where
  | start (peerId : String) (timerId : Nat)
  | stop (peerId : String)
  | tick (peerId : String) (connectionOpen : Bool) (pingId : String) (now : Int)
  | pong (peerId : String) (pingId : String) (now : Int)
deriving DecidableEq, Repr

/-- One monitor event applied to the monitor state. -/
def stepMonitor (m : LatencyMonitor) : MonEvent → LatencyMonitor
  | .start p tid => (m.startMonitoring p tid).1
  | .stop p => (m.stopMonitoring p).1
  | .tick p opn pid now => (m.sendPing p opn pid now).1
  | .pong p pid now => (m.processPong p pid now).1

/-- The monitor state after a sequence of events. -/
def runMonitor (m : LatencyMonitor) (events : List MonEvent) : LatencyMonitor :=
  events.foldl stepMonitor m

theorem length_shiftWhileOver (n : Nat) (l : List Int) :
    (shiftWhileOver n l).length = min l.length n := by
  induction l with
  | nil => simp [shiftWhileOver]
  | cons a l ih =>
    by_cases h : n < (a :: l).length
    · simp only [shiftWhileOver, if_pos h, ih]
      simp only [List.length_cons] at h ⊢
      omega
    · simp only [shiftWhileOver, if_neg h]
      simp only [List.length_cons] at h ⊢
      omega

theorem shiftWhileOver_eq_drop (n : Nat) (l : List Int) :
    shiftWhileOver n l = l.drop (l.length - n) := by
  induction l with
  | nil => simp [shiftWhileOver]
  | cons a l ih =>
    by_cases h : n < (a :: l).length
    · have hlen : (a :: l).length - n = (l.length - n) + 1 := by
        simp only [List.length_cons] at h ⊢
        omega
      simp only [shiftWhileOver, if_pos h, ih, hlen, List.drop_succ_cons]
    · have hlen : (a :: l).length - n = 0 := by
        simp only [List.length_cons] at h ⊢
        omega
      simp only [shiftWhileOver, if_neg h, hlen, List.drop_zero]

/-- Whether a list of monitor effects contains an immediate ping send: either a
`latency-ping` message sent during the call itself, or a one-shot timer
scheduled with zero delay. -/
def sentImmediately (effects : List MonitorEffect) : Bool :=
  effects.any fun e =>
    match e with
    | .sendPingMessage _ _ _ => true
    | .scheduleTimeout 0 => true
    | _ => false

/-- C1 (counterexample): registering a data connection whose channel is not yet
open (the inbound `peer.on('connection')` path) already puts the peer into
`getConnectedPeers()`, while the code's own openness test
`isConnectedToPeer` reports the channel is not open — refuting the claimed
equivalence between membership and an Open data channel. -/
theorem getConnectedPeers_not_open_counterexample :
    "q" ∈ (initPeerManager.handleConnection ⟨"q", false⟩).getConnectedPeers
    ∧ (initPeerManager.handleConnection ⟨"q", false⟩).isConnectedToPeer "q" = false := by
  constructor <;> decide

/-- C1 (amended): a peer is in the sequence returned by `getConnectedPeers()`
if and only if a data connection for it is registered in `this.connections`,
regardless of whether that channel has reported open. -/
theorem mem_getConnectedPeers_iff_registered :
    ∀ (pm : PeerManager) (peerId : String),
      peerId ∈ pm.getConnectedPeers ↔ (alookup pm.connections peerId).isSome := by
  intro pm p
  exact mem_map_fst_iff_alookup_isSome pm.connections p

/-- Witness instantiating `mem_getConnectedPeers_iff_registered` at a concrete
registry. -/
theorem mem_getConnectedPeers_iff_registered_witness :
    "q" ∈ (initPeerManager.handleConnection ⟨"q", true⟩).getConnectedPeers ↔
      (alookup (initPeerManager.handleConnection ⟨"q", true⟩).connections "q").isSome :=
  mem_getConnectedPeers_iff_registered (initPeerManager.handleConnection ⟨"q", true⟩) "q"

/-- C3: classification of averaged (rtt, jitter): `rtt < 50 ∧ jitter < 15`
yields good; otherwise `rtt < 100 ∧ jitter < 30` yields medium; otherwise
poor.  In particular (49, 14) is good, (50, 14) is medium, (100, 0) is poor. -/
theorem getLatencyQuality_boundaries :
    (∀ rtt jitter : Int, rtt < 50 → jitter < 15 →
        getLatencyQuality rtt jitter = .good)
    ∧ (∀ rtt jitter : Int, ¬ (rtt < 50 ∧ jitter < 15) → rtt < 100 → jitter < 30 →
        getLatencyQuality rtt jitter = .medium)
    ∧ (∀ rtt jitter : Int, ¬ (rtt < 50 ∧ jitter < 15) → ¬ (rtt < 100 ∧ jitter < 30) →
        getLatencyQuality rtt jitter = .poor)
    ∧ getLatencyQuality 49 14 = .good
    ∧ getLatencyQuality 50 14 = .medium
    ∧ getLatencyQuality 100 0 = .poor := by
  refine ⟨?_, ?_, ?_, by decide, by decide, by decide⟩
  · intro rtt jitter h1 h2
    simp [getLatencyQuality, h1, h2]
  · intro rtt jitter hn h1 h2
    simp [getLatencyQuality, hn, h1, h2]
  · intro rtt jitter hn1 hn2
    simp [getLatencyQuality, hn1, hn2]

/-- Witness instantiating each implication of `getLatencyQuality_boundaries`
at concrete rtt and jitter values. -/
theorem getLatencyQuality_boundaries_witness :
    getLatencyQuality 10 5 = .good
    ∧ getLatencyQuality 70 20 = .medium
    ∧ getLatencyQuality 200 50 = .poor :=
  ⟨getLatencyQuality_boundaries.1 10 5 (by decide) (by decide),
   getLatencyQuality_boundaries.2.1 70 20 (by decide) (by decide) (by decide),
   getLatencyQuality_boundaries.2.2.1 200 50 (by decide) (by decide)⟩

/-- C5: a pong whose pingId has no pending-ping record (unknown, or already
consumed) leaves the monitor state unchanged and produces no effects — in
particular no history change and no display update — and the embedding is a
total function, so no exception is raised; a matched pong deletes its
pending-ping record, so processing the same pingId again is such a no-op. -/
theorem stale_pong_noop :
    (∀ (m : LatencyMonitor) (peerId pingId : String) (now : Int),
        alookup m.pendingPings pingId = none →
        m.processPong peerId pingId now = (m, []))
    ∧ (∀ (m : LatencyMonitor) (peerId pingId : String) (now : Int)
        (pending : PendingPing),
        alookup m.pendingPings pingId = some pending →
        alookup (m.processPong peerId pingId now).1.pendingPings pingId = none)
    ∧ (∀ (m : LatencyMonitor) (peerId peerId2 pingId : String) (now now2 : Int)
        (pending : PendingPing),
        alookup m.pendingPings pingId = some pending →
        (m.processPong peerId pingId now).1.processPong peerId2 pingId now2 =
          ((m.processPong peerId pingId now).1, [])) := by
  refine ⟨?_, ?_, ?_⟩
  · intro m p pid now h
    simp [LatencyMonitor.processPong, h]
  · intro m p pid now pending h
    simp [LatencyMonitor.processPong, h, alookup_adel]
  · intro m p p2 pid now now2 pending h
    have h2 : alookup (m.processPong p pid now).1.pendingPings pid = none := by
      simp [LatencyMonitor.processPong, h, alookup_adel]
    generalize hX : (m.processPong p pid now).1 = X at h2 ⊢
    simp [LatencyMonitor.processPong, h2]

/-- Witness for `stale_pong_noop`: an unknown pingId on a concrete monitor is
a no-op, and a matched pong on a concrete monitor consumes its record. -/
theorem stale_pong_noop_witness :
    LatencyMonitor.processPong ⟨[], [], [], true⟩ "p" "nope" 5 = (⟨[], [], [], true⟩, [])
    ∧ alookup (LatencyMonitor.processPong
        ⟨[], [], [("ping1", ⟨100, "p"⟩)], true⟩ "p" "ping1" 140).1.pendingPings
        "ping1" = none :=
  ⟨stale_pong_noop.1 ⟨[], [], [], true⟩ "p" "nope" 5 rfl,
   stale_pong_noop.2.1 ⟨[], [], [("ping1", ⟨100, "p"⟩)], true⟩ "p" "ping1" 140
     ⟨100, "p"⟩ rfl⟩

/-- C8 (counterexample): on a fresh peer, `startMonitoring` emits exactly the
interval schedule (2000 ms), a one-shot timer with delay 200 ms, and the data
handler registration — it sends no ping during the call itself and schedules
no zero-delay timer, so no ping is sent immediately; the early ping happens
only 200 ms later. -/
theorem immediate_ping_counterexample :
    (initLatencyMonitor.startMonitoring "p" 1).2 =
      [.scheduleInterval 1 2000, .scheduleTimeout 200, .attachDataHandler "p"]
    ∧ sentImmediately (initLatencyMonitor.startMonitoring "p" 1).2 = false := by
  constructor <;> decide

/-- C8 (amended): on `startMonitoring` for a peer not already monitored, in
addition to the periodic pings every 2000 ms, one extra ping is scheduled on a
one-shot 200 ms timer — before the first 2000 ms period elapses, though not
strictly immediately. -/
theorem startMonitoring_schedules_early_ping :
    ∀ (m : LatencyMonitor) (peerId : String) (timerId : Nat),
      alookup m.pingIntervals peerId = none →
      (m.startMonitoring peerId timerId).2 =
        [.scheduleInterval timerId LatencyMonitor.pingInterval,
         .scheduleTimeout 200, .attachDataHandler peerId]
      ∧ LatencyMonitor.pingInterval = 2000
      ∧ 200 < LatencyMonitor.pingInterval := by
  intro m p tid h
  refine ⟨?_, rfl, by decide⟩
  simp [LatencyMonitor.startMonitoring, h]

/-- Witness instantiating `startMonitoring_schedules_early_ping` on the fresh
monitor. -/
theorem startMonitoring_schedules_early_ping_witness :
    (initLatencyMonitor.startMonitoring "w" 3).2 =
      [.scheduleInterval 3 LatencyMonitor.pingInterval,
       .scheduleTimeout 200, .attachDataHandler "w"]
    ∧ LatencyMonitor.pingInterval = 2000
    ∧ 200 < LatencyMonitor.pingInterval :=
  startMonitoring_schedules_early_ping initLatencyMonitor "w" 3 rfl

/-- C9: `calculateLatencyStats` is total at its public interface: a peer whose
history is absent or empty gets the all-zero statistics record rather than an
exception. -/
theorem calculateLatencyStats_total_empty :
    (∀ (m : LatencyMonitor) (peerId : String),
        alookup m.pingHistory peerId = none →
        m.calculateLatencyStats peerId = { avg := 0, min := 0, max := 0, jitter := 0 })
    ∧ (∀ (m : LatencyMonitor) (peerId : String),
        alookup m.pingHistory peerId = some [] →
        m.calculateLatencyStats peerId = { avg := 0, min := 0, max := 0, jitter := 0 }) := by
  constructor <;> intro m peerId h <;> simp [LatencyMonitor.calculateLatencyStats, h]

/-- Witness for `calculateLatencyStats_total_empty`: the fresh monitor (absent
history) and a monitor with an empty history both give all zeros. -/
theorem calculateLatencyStats_total_empty_witness :
    initLatencyMonitor.calculateLatencyStats "p" =
      { avg := 0, min := 0, max := 0, jitter := 0 }
    ∧ LatencyMonitor.calculateLatencyStats ⟨[("p", 4)], [("p", [])], [], true⟩ "p" =
      { avg := 0, min := 0, max := 0, jitter := 0 } :=
  ⟨calculateLatencyStats_total_empty.1 initLatencyMonitor "p" rfl,
   calculateLatencyStats_total_empty.2 ⟨[("p", 4)], [("p", [])], [], true⟩ "p" rfl⟩

/-- C10: `startMonitoring` is idempotent per peer: when the peer already has a
ping interval registered, the call changes nothing and has no effects — no
second timer, no history reset, no additional data handler. -/
theorem startMonitoring_idempotent :
    ∀ (m : LatencyMonitor) (peerId : String) (timerId : Nat),
      (alookup m.pingIntervals peerId).isSome →
      m.startMonitoring peerId timerId = (m, []) := by
  intro m p tid h
  simp [LatencyMonitor.startMonitoring, h]

/-- Witness for `startMonitoring_idempotent` on a concrete already-monitored
peer. -/
theorem startMonitoring_idempotent_witness :
    LatencyMonitor.startMonitoring ⟨[("p", 7)], [("p", [])], [], true⟩ "p" 9 =
      (⟨[("p", 7)], [("p", [])], [], true⟩, []) :=
  startMonitoring_idempotent ⟨[("p", 7)], [("p", [])], [], true⟩ "p" 9 (by decide)

theorem jsRoundDiv_of_dvd (a b : Int) (hb : 0 < b) (hd : b ∣ a) :
    (jsRoundDiv a b : ℚ) = (a : ℚ) / (b : ℚ) := by
  obtain ⟨k, rfl⟩ := hd
  have h2b : (0 : Int) ≤ 2 * b := by omega
  have hk : jsRoundDiv (b * k) b = k := by
    unfold jsRoundDiv
    rw [Int.fdiv_eq_ediv _ h2b]
    have hrw : 2 * (b * k) + b = b + k * (2 * b) := by ring
    rw [hrw, Int.add_mul_ediv_right _ _ (by omega : (2 * b) ≠ 0),
      Int.ediv_eq_zero_of_lt (le_of_lt hb) (by omega), zero_add]
  have hbq : (b : ℚ) ≠ 0 := by
    exact_mod_cast hb.ne'
  rw [hk]
  push_cast
  rw [mul_comm, mul_div_assoc, div_self hbq, mul_one]

/-- The jitter value the specification describes: the exact (unrounded) mean
absolute difference between consecutive samples, as a rational; 0 for fewer
than 2 samples.  Kept separate from `calculateLatencyStats`, which rounds. -/
def specJitterValue (h : List Int) : ℚ :=
  if h.length ≤ 1 then 0 else (jitterSum h : ℚ) / ((h.length : ℚ) - 1)

/-- C2 (counterexample): for the history [0, 1, 1] the sum of absolute
consecutive differences is 1 and n - 1 = 2, so the claimed jitter is 1/2, but
`calculateLatencyStats` applies `Math.round` and returns 1. -/
theorem jitter_rounding_counterexample :
    (LatencyMonitor.calculateLatencyStats ⟨[], [("p", [0, 1, 1])], [], true⟩ "p").jitter = 1
    ∧ specJitterValue [0, 1, 1] = 1 / 2
    ∧ ¬ (((LatencyMonitor.calculateLatencyStats ⟨[], [("p", [0, 1, 1])], [], true⟩ "p").jitter : ℚ)
        = specJitterValue [0, 1, 1]) := by
  have h1 : (LatencyMonitor.calculateLatencyStats ⟨[], [("p", [0, 1, 1])], [], true⟩ "p").jitter = 1 := by
    decide
  have hj : jitterSum [0, 1, 1] = 1 := by decide
  have h2 : specJitterValue [0, 1, 1] = 1 / 2 := by
    unfold specJitterValue
    simp [hj]
    norm_num
  refine ⟨h1, h2, ?_⟩
  rw [h1, h2]
  norm_num

/-- C2 (amended): the jitter returned by `calculateLatencyStats` is
`Math.round` (half toward positive infinity) of the mean absolute difference
between consecutive samples: for any history of length at least 2 it equals
`jsRoundDiv (jitterSum h) (n - 1)`, agreeing exactly with the unrounded mean
whenever `n - 1` divides the sum of absolute differences; for `[a, b, c]` it
equals `round((|b-a| + |c-b|) / 2)`; for length 0 or 1 it equals 0. -/
theorem jitter_eq_rounded_mean_abs_diff :
    (∀ (m : LatencyMonitor) (peerId : String) (h : List Int),
        alookup m.pingHistory peerId = some h → 1 < h.length →
        (m.calculateLatencyStats peerId).jitter =
          jsRoundDiv (jitterSum h) ((h.length : Int) - 1))
    ∧ (∀ (m : LatencyMonitor) (peerId : String) (h : List Int),
        alookup m.pingHistory peerId = some h → 1 < h.length →
        ((h.length : Int) - 1) ∣ jitterSum h →
        (((m.calculateLatencyStats peerId).jitter : ℚ)) = specJitterValue h)
    ∧ (∀ (m : LatencyMonitor) (peerId : String) (h : List Int),
        alookup m.pingHistory peerId = some h → h.length ≤ 1 →
        (m.calculateLatencyStats peerId).jitter = 0)
    ∧ (∀ (m : LatencyMonitor) (peerId : String) (a b c : Int),
        alookup m.pingHistory peerId = some [a, b, c] →
        (m.calculateLatencyStats peerId).jitter = jsRoundDiv (|b - a| + |c - b|) 2) := by
  have hmain : ∀ (m : LatencyMonitor) (peerId : String) (h : List Int),
      alookup m.pingHistory peerId = some h → 1 < h.length →
      (m.calculateLatencyStats peerId).jitter =
        jsRoundDiv (jitterSum h) ((h.length : Int) - 1) := by
    intro m p hist hl hlen
    cases hist with
    | nil => simp at hlen
    | cons a t =>
      simp only [LatencyMonitor.calculateLatencyStats, hl, if_pos hlen]
  refine ⟨hmain, ?_, ?_, ?_⟩
  · intro m p hist hl hlen hdvd
    have hpos : (0 : Int) < (hist.length : Int) - 1 := by
      have : 1 < hist.length := hlen
      omega
    rw [hmain m p hist hl hlen, jsRoundDiv_of_dvd _ _ hpos hdvd, specJitterValue,
      if_neg (by omega)]
    push_cast
    ring_nf
  · intro m p hist hl hlen
    cases hist with
    | nil =>
      simp [LatencyMonitor.calculateLatencyStats, hl]
    | cons a t =>
      cases t with
      | nil => simp [LatencyMonitor.calculateLatencyStats, hl]
      | cons b t2 => simp at hlen
  · intro m p a b c hl
    rw [hmain m p [a, b, c] hl (by simp)]
    simp [jitterSum, jitterSumFrom]

/-- Witness for `jitter_eq_rounded_mean_abs_diff` at concrete histories. -/
theorem jitter_eq_rounded_mean_abs_diff_witness :
    (LatencyMonitor.calculateLatencyStats ⟨[], [("p", [10, 20])], [], true⟩ "p").jitter =
      jsRoundDiv (jitterSum [10, 20]) ((([10, 20] : List Int).length : Int) - 1)
    ∧ ((LatencyMonitor.calculateLatencyStats ⟨[], [("p", [10, 20])], [], true⟩ "p").jitter : ℚ) =
      specJitterValue [10, 20]
    ∧ (LatencyMonitor.calculateLatencyStats ⟨[], [("q", [5])], [], true⟩ "q").jitter = 0
    ∧ (LatencyMonitor.calculateLatencyStats ⟨[], [("r", [1, 4, 2])], [], true⟩ "r").jitter =
      jsRoundDiv (|4 - 1| + |2 - 4|) 2 :=
  ⟨jitter_eq_rounded_mean_abs_diff.1 ⟨[], [("p", [10, 20])], [], true⟩ "p" [10, 20]
      rfl (by decide),
   jitter_eq_rounded_mean_abs_diff.2.1 ⟨[], [("p", [10, 20])], [], true⟩ "p" [10, 20]
      rfl (by decide) (one_dvd _),
   jitter_eq_rounded_mean_abs_diff.2.2.1 ⟨[], [("q", [5])], [], true⟩ "q" [5]
      rfl (by decide),
   jitter_eq_rounded_mean_abs_diff.2.2.2 ⟨[], [("r", [1, 4, 2])], [], true⟩ "r" 1 4 2 rfl⟩

/-- Invariant: every stored RTT history has at most `historyLength = 10`
samples. -/
def HistBound (m : LatencyMonitor) : Prop :=
  ∀ (p : String) (h : List Int), alookup m.pingHistory p = some h → h.length ≤ 10

theorem histBound_startMonitoring (m : LatencyMonitor) (p : String) (tid : Nat)
    (hb : HistBound m) : HistBound (m.startMonitoring p tid).1 := by
  unfold LatencyMonitor.startMonitoring
  by_cases hg : (alookup m.pingIntervals p).isSome
  · simpa [hg] using hb
  · simp only [hg, if_false, Bool.false_eq_true]
    intro q hq hl
    rw [alookup_aset] at hl
    by_cases hpq : p = q
    · rw [if_pos hpq] at hl
      cases hl
      simp
    · rw [if_neg hpq] at hl
      exact hb q hq hl

theorem histBound_stopMonitoring (m : LatencyMonitor) (p : String)
    (hb : HistBound m) : HistBound (m.stopMonitoring p).1 := by
  unfold LatencyMonitor.stopMonitoring
  cases hg : alookup m.pingIntervals p with
  | none => simpa using hb
  | some tid =>
    intro q hq hl
    simp only at hl
    rw [alookup_adel] at hl
    by_cases hpq : p = q
    · rw [if_pos hpq] at hl
      cases hl
    · rw [if_neg hpq] at hl
      exact hb q hq hl

theorem histBound_sendPing (m : LatencyMonitor) (p : String) (opn : Bool)
    (pid : String) (now : Int) (hb : HistBound m) :
    HistBound (m.sendPing p opn pid now).1 := by
  unfold LatencyMonitor.sendPing
  by_cases ho : opn
  · simpa [ho] using hb
  · simp only [ho, Bool.not_false]
    simpa using histBound_stopMonitoring m p hb

theorem histBound_processPong (m : LatencyMonitor) (p : String) (pid : String)
    (now : Int) (hb : HistBound m) : HistBound (m.processPong p pid now).1 := by
  unfold LatencyMonitor.processPong
  cases hg : alookup m.pendingPings pid with
  | none => simpa using hb
  | some pending =>
    intro q hq hl
    simp only at hl
    rw [alookup_aset] at hl
    by_cases hpq : p = q
    · rw [if_pos hpq] at hl
      cases hl
      rw [length_shiftWhileOver]
      exact Nat.min_le_right _ _
    · rw [if_neg hpq] at hl
      exact hb q hq hl

theorem histBound_stepMonitor (m : LatencyMonitor) (e : MonEvent)
    (hb : HistBound m) : HistBound (stepMonitor m e) := by
  cases e with
  | start p tid => exact histBound_startMonitoring m p tid hb
  | stop p => exact histBound_stopMonitoring m p hb
  | tick p opn pid now => exact histBound_sendPing m p opn pid now hb
  | pong p pid now => exact histBound_processPong m p pid now hb

theorem histBound_runMonitor (m : LatencyMonitor) (events : List MonEvent)
    (hb : HistBound m) : HistBound (runMonitor m events) := by
  induction events generalizing m with
  | nil => exact hb
  | cons e rest ih => exact ih (stepMonitor m e) (histBound_stepMonitor m e hb)

/-- C4: starting from the freshly constructed monitor, after any sequence of
monitor events (starts, stops, timer ticks and pong receipts) every peer's RTT
history has length at most 10; and when a matched pong arrives with the
history already at length 10, the new history is the old one with its oldest
(front) sample dropped and the new RTT appended at the back. -/
theorem pingHistory_bounded_and_oldest_evicted :
    (∀ (events : List MonEvent) (p : String) (h : List Int),
        alookup (runMonitor initLatencyMonitor events).pingHistory p = some h →
        h.length ≤ 10)
    ∧ (∀ (m : LatencyMonitor) (p pingId : String) (now : Int)
        (pending : PendingPing) (h : List Int),
        alookup m.pendingPings pingId = some pending →
        alookup m.pingHistory p = some h →
        h.length = 10 →
        alookup (m.processPong p pingId now).1.pingHistory p =
          some (h.tail ++ [now - pending.timestamp])) := by
  constructor
  · intro events p h hl
    refine histBound_runMonitor initLatencyMonitor events ?_ p h hl
    intro q hq hlq
    simp [initLatencyMonitor, alookup] at hlq
  · intro m p pid now pending h hpend hhist hlen
    cases h with
    | nil => simp at hlen
    | cons a t =>
      simp only [LatencyMonitor.processPong, hpend, hhist, Option.getD_some]
      rw [alookup_aset, if_pos rfl]
      congr 1
      rw [shiftWhileOver_eq_drop, LatencyMonitor.historyLength]
      have hlt : t.length = 9 := by
        simp only [List.length_cons] at hlen
        omega
      have hdlen : (a :: t ++ [now - pending.timestamp]).length - 10 = 1 := by
        simp [hlt]
      rw [hdlen]
      simp

/-- Witness for `pingHistory_bounded_and_oldest_evicted`: a concrete run of
start, tick and pong leaves a bounded history, and a concrete full history
evicts its oldest sample on the next matched pong. -/
theorem pingHistory_bounded_and_oldest_evicted_witness :
    ([40] : List Int).length ≤ 10
    ∧ alookup (LatencyMonitor.processPong
        ⟨[("p", 1)], [("p", [1, 2, 3, 4, 5, 6, 7, 8, 9, 10])],
         [("ping1", ⟨100, "p"⟩)], true⟩ "p" "ping1" 150).1.pingHistory "p" =
      some (([1, 2, 3, 4, 5, 6, 7, 8, 9, 10] : List Int).tail ++ [150 - 100]) :=
  ⟨pingHistory_bounded_and_oldest_evicted.1
      [.start "p" 1, .tick "p" true "id1" 100, .pong "p" "id1" 140] "p" [40] (by decide),
   pingHistory_bounded_and_oldest_evicted.2
      ⟨[("p", 1)], [("p", [1, 2, 3, 4, 5, 6, 7, 8, 9, 10])],
       [("ping1", ⟨100, "p"⟩)], true⟩ "p" "ping1" 150 ⟨100, "p"⟩
      [1, 2, 3, 4, 5, 6, 7, 8, 9, 10] rfl rfl rfl⟩

theorem stopMonitoring_pingIntervals_self (m : LatencyMonitor) (p : String) :
    alookup (m.stopMonitoring p).1.pingIntervals p = none := by
  unfold LatencyMonitor.stopMonitoring
  cases hg : alookup m.pingIntervals p with
  | none => simpa using hg
  | some tid => simp [alookup_adel]

theorem stopMonitoring_of_none (m : LatencyMonitor) (p : String)
    (h : alookup m.pingIntervals p = none) : (m.stopMonitoring p).1 = m := by
  unfold LatencyMonitor.stopMonitoring
  rw [h]

theorem hPD_latencyMonitor (s : AppState) (p : String) :
    (handlePeerDisconnection s p).latencyMonitor = (s.latencyMonitor.stopMonitoring p).1 :=
  rfl

theorem hPD_connections_lookup (s : AppState) (p : String) :
    alookup (handlePeerDisconnection s p).peerManager.connections p = none := by
  cases ho : alookup s.peerManager.connections p with
  | none => simp [handlePeerDisconnection, ho]
  | some c => simp [handlePeerDisconnection, ho, alookup_adel]

theorem hPD_calls_lookup (s : AppState) (p : String) :
    alookup (handlePeerDisconnection s p).peerManager.calls p = none := by
  cases ho : alookup s.peerManager.calls p with
  | none => simp [handlePeerDisconnection, ho]
  | some c => simp [handlePeerDisconnection, ho, alookup_adel]

theorem hPD_statsIntervals_lookup (s : AppState) (p : String) :
    alookup (handlePeerDisconnection s p).peerManager.statsIntervals p = none := by
  cases ho : alookup s.peerManager.statsIntervals p with
  | none => simp [handlePeerDisconnection, ho]
  | some c => simp [handlePeerDisconnection, ho, alookup_adel]

theorem hPD_of_absent (s : AppState) (p : String)
    (h1 : alookup s.peerManager.connections p = none)
    (h2 : alookup s.peerManager.calls p = none)
    (h3 : alookup s.peerManager.statsIntervals p = none)
    (h4 : alookup s.latencyMonitor.pingIntervals p = none) :
    handlePeerDisconnection s p = s := by
  unfold handlePeerDisconnection
  rw [stopMonitoring_of_none s.latencyMonitor p h4]
  simp [h1, h2, h3]

/-- C6 (counterexample): teardown does not always clear the RTT history.  The
startMonitoring 200 ms one-shot timer is never cancelled and the data handler
stays attached, so after `stopMonitoring` a stale tick can re-register a
pending ping and a late pong then recreates `pingHistory[x]`;
`handlePeerDisconnection` guards its monitor cleanup on the interval entry,
which no longer exists, so the history entry for the disconnected peer
survives the disconnect call, contradicting the claimed end state. -/
theorem disconnect_leaves_stale_history_counterexample :
    alookup (handlePeerDisconnection
      ⟨initPeerManager,
       runMonitor initLatencyMonitor
         [.start "x" 1, .stop "x", .tick "x" true "idA" 0, .pong "x" "idA" 5]⟩
      "x").latencyMonitor.pingHistory "x" = some [5] := by
  decide

/-- C6 (amended): `handlePeerDisconnection` is idempotent — a second call for
the same peer is exactly a state no-op — and after one call the peer has no
connection, call, stats-interval or ping-interval entry; the RTT history entry
is also gone whenever the peer's monitoring timer was registered at the time
of the call; a call for a peer absent from all maps is a state no-op. -/
theorem handlePeerDisconnection_idempotent :
    (∀ (s : AppState) (p : String),
        handlePeerDisconnection (handlePeerDisconnection s p) p =
          handlePeerDisconnection s p)
    ∧ (∀ (s : AppState) (p : String),
        alookup (handlePeerDisconnection s p).peerManager.connections p = none
        ∧ alookup (handlePeerDisconnection s p).peerManager.calls p = none
        ∧ alookup (handlePeerDisconnection s p).peerManager.statsIntervals p = none
        ∧ alookup (handlePeerDisconnection s p).latencyMonitor.pingIntervals p = none)
    ∧ (∀ (s : AppState) (p : String),
        (alookup s.latencyMonitor.pingIntervals p).isSome →
        alookup (handlePeerDisconnection s p).latencyMonitor.pingHistory p = none)
    ∧ (∀ (s : AppState) (p : String),
        alookup s.peerManager.connections p = none →
        alookup s.peerManager.calls p = none →
        alookup s.peerManager.statsIntervals p = none →
        alookup s.latencyMonitor.pingIntervals p = none →
        handlePeerDisconnection s p = s) := by
  refine ⟨?_, ?_, ?_, hPD_of_absent⟩
  · intro s p
    exact hPD_of_absent (handlePeerDisconnection s p) p
      (hPD_connections_lookup s p) (hPD_calls_lookup s p)
      (hPD_statsIntervals_lookup s p)
      (by rw [hPD_latencyMonitor]; exact stopMonitoring_pingIntervals_self _ _)
  · intro s p
    exact ⟨hPD_connections_lookup s p, hPD_calls_lookup s p,
      hPD_statsIntervals_lookup s p,
      by rw [hPD_latencyMonitor]; exact stopMonitoring_pingIntervals_self _ _⟩
  · intro s p hi
    rw [hPD_latencyMonitor]
    unfold LatencyMonitor.stopMonitoring
    cases hg : alookup s.latencyMonitor.pingIntervals p with
    | none => rw [hg] at hi; cases hi
    | some tid => simp [alookup_adel]

/-- Witness for `handlePeerDisconnection_idempotent` on a concrete state with
a fully registered peer (for the first three conjuncts) and the empty state
(for the unknown-peer no-op). -/
theorem handlePeerDisconnection_idempotent_witness :
    (handlePeerDisconnection (handlePeerDisconnection
        ⟨⟨[("x", ⟨"x", true⟩)], [("x", 2)], [("x", 3)]⟩,
         ⟨[("x", 4)], [("x", [7])], [("pg", ⟨1, "x"⟩)], true⟩⟩ "x") "x" =
      handlePeerDisconnection
        ⟨⟨[("x", ⟨"x", true⟩)], [("x", 2)], [("x", 3)]⟩,
         ⟨[("x", 4)], [("x", [7])], [("pg", ⟨1, "x"⟩)], true⟩⟩ "x")
    ∧ alookup (handlePeerDisconnection
        ⟨⟨[("x", ⟨"x", true⟩)], [("x", 2)], [("x", 3)]⟩,
         ⟨[("x", 4)], [("x", [7])], [("pg", ⟨1, "x"⟩)], true⟩⟩
        "x").latencyMonitor.pingHistory "x" = none
    ∧ handlePeerDisconnection ⟨initPeerManager, initLatencyMonitor⟩ "x" =
      ⟨initPeerManager, initLatencyMonitor⟩ :=
  ⟨handlePeerDisconnection_idempotent.1
      ⟨⟨[("x", ⟨"x", true⟩)], [("x", 2)], [("x", 3)]⟩,
       ⟨[("x", 4)], [("x", [7])], [("pg", ⟨1, "x"⟩)], true⟩⟩ "x",
   handlePeerDisconnection_idempotent.2.2.1
      ⟨⟨[("x", ⟨"x", true⟩)], [("x", 2)], [("x", 3)]⟩,
       ⟨[("x", 4)], [("x", [7])], [("pg", ⟨1, "x"⟩)], true⟩⟩ "x" (by decide),
   handlePeerDisconnection_idempotent.2.2.2
      ⟨initPeerManager, initLatencyMonitor⟩ "x" rfl rfl rfl rfl⟩

/-- C7: in the outbound join flow of `connectToPeer`, the media call is
initiated only inside the data connection's open handler: the open handler is
exactly registration followed by `callPeer`; no other event's handler starts a
media call; and over any (prefix of a) sequence of connection events, a media
call appears in the action log only if an open event has occurred in it. -/
theorem media_call_only_after_data_open :
    connectToPeerHandler .evOpen = [.registerConnection, .startMediaCall]
    ∧ (∀ e : ConnEvent, FlowAction.startMediaCall ∈ connectToPeerHandler e →
        e = .evOpen)
    ∧ (∀ events : List ConnEvent,
        FlowAction.startMediaCall ∈ connectToPeerLog events →
        ConnEvent.evOpen ∈ events)
    ∧ (∀ (events : List ConnEvent) (n : Nat),
        FlowAction.startMediaCall ∈ connectToPeerLog (events.take n) →
        ConnEvent.evOpen ∈ events.take n) := by
  have hlog : ∀ events : List ConnEvent,
      FlowAction.startMediaCall ∈ connectToPeerLog events →
      ConnEvent.evOpen ∈ events := by
    intro events
    induction events with
    | nil =>
      intro hmem
      simp [connectToPeerLog] at hmem
    | cons e rest ih =>
      intro hmem
      rw [connectToPeerLog] at hmem
      rcases List.mem_append.mp hmem with h1 | h2
      · cases e with
        | evOpen => exact List.mem_cons_self _ _
        | evError => simp [connectToPeerHandler] at h1
      · exact List.mem_cons_of_mem _ (ih h2)
  refine ⟨rfl, ?_, hlog, fun events n h => hlog _ h⟩
  intro e he
  cases e with
  | evOpen => rfl
  | evError => simp [connectToPeerHandler] at he

/-- Witness for `media_call_only_after_data_open` on a concrete event
sequence containing an error then an open. -/
theorem media_call_only_after_data_open_witness :
    ConnEvent.evOpen ∈ [ConnEvent.evError, ConnEvent.evOpen] :=
  media_call_only_after_data_open.2.2.1 [ConnEvent.evError, ConnEvent.evOpen]
    (by decide)

end RemoteDaw
